import Mathlib

/-!
Shallow embedding of the price-list filtering script (src/filter_listino.py).

Numbers are modelled as rationals; Python float parsing is modelled on the
plain decimal-literal fragment (optional sign, digits, one optional decimal
point), which covers every monetary string the script's numeric pipeline
produces.  Python str.strip / str.lower are modelled on the ASCII fragment.
Logging (print) and the FTP transport are outside the embedding; main's
control flow is modelled with explicit success/failure oracles for the
effectful steps.
-/

namespace FilterListino

/-- Python str.strip(): drop leading and trailing whitespace characters
(modelled on the ASCII whitespace fragment matched by Char.isWhitespace). -/
def pyStripChars (l : List Char) : List Char :=
  ((l.dropWhile Char.isWhitespace).reverse.dropWhile Char.isWhitespace).reverse

/-- String wrapper for pyStripChars. -/
def pyStrip (s : String) : String :=
  String.mk (pyStripChars s.data)

/-- Value of a digit string, most significant digit first. -/
def digitsVal (l : List Char) : ℕ :=
  l.foldl (fun acc c => acc * 10 + (c.toNat - 48)) 0

/-- Model of Python float(s) on the plain decimal-literal fragment:
optional surrounding whitespace, optional sign, digits with at most one
decimal point and at least one digit.  Inputs outside this fragment are
treated as unparseable. -/
def pyFloat (l0 : List Char) : Option ℚ :=
  let l := pyStripChars l0
  let sl : ℚ × List Char :=
    if l.head? = some '-' then (-1, l.drop 1)
    else if l.head? = some '+' then (1, l.drop 1)
    else (1, l)
  let intPart := sl.2.takeWhile Char.isDigit
  let rest := sl.2.dropWhile Char.isDigit
  match rest with
  | [] => if intPart.isEmpty then none else some (sl.1 * (digitsVal intPart : ℚ))
  | '.' :: frac =>
    if frac.all Char.isDigit && (!intPart.isEmpty || !frac.isEmpty) then
      some (sl.1 * ((digitsVal intPart : ℚ) + (digitsVal frac : ℚ) / (10 : ℚ) ^ frac.length))
    else none
  | _ => none

/-- Python s.replace(c, ""): remove every occurrence of a character. -/
def removeChar (c : Char) (l : List Char) : List Char :=
  l.filter (fun x => x ≠ c)

/-- Python s.split(c)[-1]: the suffix after the last occurrence of c
(the whole list when c does not occur). -/
def tailAfterLast (c : Char) (l : List Char) : List Char :=
  (l.reverse.takeWhile (fun x => x ≠ c)).reverse

/-- is_thousands_tail from to_number: tail has length 3, 6 or 9 and is all
digits. -/
def is_thousands_tail (tail : List Char) : Bool :=
  (tail.length == 3 || tail.length == 6 || tail.length == 9) && tail.all Char.isDigit

/-- True when, among both separators, the rightmost occurrence is a comma
(the source compares s.rfind of the two separators; both are present when
this is consulted). -/
def lastSepIsComma (l : List Char) : Bool :=
  match l.reverse.find? (fun x => x == ',' || x == '.') with
  | some c => c == ','
  | none => false

/-- to_number from the source: trim, record negativity from parentheses or a
leading minus, strip currency symbols and spaces, disambiguate comma/dot as
thousands vs decimal separators, then parse the normalized decimal string. -/
def to_number (val : String) : Option ℚ :=
  let s0 := pyStripChars val.data
  if s0.isEmpty then none
  else
    let p : Bool × List Char :=
      if s0.head? = some '(' ∧ s0.getLast? = some ')' then
        (true, pyStripChars (s0.drop 1).dropLast)
      else (false, s0)
    let m : Bool × List Char :=
      if p.2.head? = some '-' then (true, pyStripChars (p.2.drop 1))
      else (p.1, p.2)
    let s1 := removeChar '\u00A0' (removeChar ' ' (removeChar '€' m.2))
    let s2 :=
      if s1.contains ',' && s1.contains '.' then
        if lastSepIsComma s1 then
          (removeChar '.' s1).map (fun c => if c = ',' then '.' else c)
        else removeChar ',' s1
      else if s1.contains ',' then
        if is_thousands_tail (tailAfterLast ',' s1) ∧ 1 ≤ s1.count ',' then
          removeChar ',' s1
        else s1.map (fun c => if c = ',' then '.' else c)
      else if s1.contains '.' then
        if is_thousands_tail (tailAfterLast '.' s1) ∧ 1 ≤ s1.count '.' then
          removeChar '.' s1
        else s1
      else s1
    match pyFloat s2 with
    | none => none
    | some q => some (if m.1 then -q else q)

/-- The filter configuration read from the environment: FILTER_MODE,
FILTER_COLUMN and FILTER_MATCH. -/
structure FilterConfig where
  filter_mode : String
  filter_column : String
  filter_match : String

/-- The any-cell predicate of filter_rows' else branch: some cell, after
trimming, equals the match string. -/
def anyCellPred (cfg : FilterConfig) (r : List String) : Bool :=
  r.any (fun c => pyStrip c == cfg.filter_match)

/-- filter_rows from the source.  The column branch is taken only when the
mode is "column" and the configured column name occurs among the headers;
it keeps rows long enough to index whose trimmed cell at the column's first
index equals the match string.  Otherwise the any-cell branch is taken. -/
def filter_rows (cfg : FilterConfig) (rows : List (List String))
    (headers : List String) : List (List String) :=
  if cfg.filter_mode = "column" ∧ cfg.filter_column ∈ headers then
    rows.filter (fun r =>
      decide (headers.indexOf cfg.filter_column < r.length) &&
        (pyStrip (r.getD (headers.indexOf cfg.filter_column) "") == cfg.filter_match))
  else
    rows.filter (anyCellPred cfg)

/-- find_col from add_prezzo_scontato: first index whose trimmed, lowercased
header equals the lowercased name. -/
def find_col (headers : List String) (name : String) : Option ℕ :=
  headers.findIdx? (fun h => (pyStrip h).toLower == name.toLower)

/-- Python abs() on numbers. -/
def pyAbs (q : ℚ) : ℚ :=
  if q < 0 then -q else q

/-- Discount normalization from add_prezzo_scontato: a missing discount is 0;
otherwise the absolute value, capped at 100. -/
def norm_sconto (o : Option ℚ) : ℚ :=
  match o with
  | none => 0
  | some v => if pyAbs v > 100 then 100 else pyAbs v

/-- fmt_decimal from the source: render with exactly two digits after the
decimal separator (dot, or comma unless OUTPUT_DECIMAL is "dot").  Rounding
to two places is modelled by nearest-integer rounding of 100·num; the
source formats an IEEE double, which agrees on the decimal values arising
here. -/
def fmt_decimal (output_decimal : String) (num : ℚ) : String :=
  let z := round (num * 100)
  let n := z.natAbs
  let fracN := n % 100
  let s := (if z < 0 then "-" else "") ++ toString (n / 100) ++ "." ++
    (if fracN < 10 then "0" else "") ++ toString fracN
  if output_decimal = "dot" then s
  else String.mk (s.data.map (fun c => if c = '.' then ',' else c))

/-- The per-row body of add_prezzo_scontato's loop: a row too short to hold
both source columns gets one empty cell; a row whose price cell does not
parse gets one empty cell; otherwise the discounted price is appended. -/
def processRow (output_decimal : String) (idxP idxS : ℕ) (r : List String) :
    List String :=
  if r.length ≤ max idxP idxS then r ++ [""]
  else
    match to_number (r.getD idxP "") with
    | none => r ++ [""]
    | some prezzo =>
      r ++ [fmt_decimal output_decimal
        (prezzo * (1 - norm_sconto (to_number (r.getD idxS "")) / 100))]

/-- add_prezzo_scontato from the source, modelled as a function returning the
updated headers and rows.  When either source column is missing the table is
returned unchanged; otherwise the PREZZO_SCONTATO header is appended unless a
trimmed header already equals it, and every row is processed. -/
def add_prezzo_scontato (output_decimal : String) (headers : List String)
    (rows : List (List String)) : List String × List (List String) :=
  match find_col headers "liprezzo", find_col headers "liscont1" with
  | some idxP, some idxS =>
    ((if "PREZZO_SCONTATO" ∈ headers.map pyStrip then headers
      else headers ++ ["PREZZO_SCONTATO"]),
     rows.map (processRow output_decimal idxP idxS))
  | _, _ => (headers, rows)

/-- The csv.Dialect fields fixed by the source's dialect classes
(quoting 0 is csv.QUOTE_MINIMAL). -/
structure Dialect where
  delimiter : String
  quotechar : Char
  escapechar : Option Char
  doublequote : Bool
  skipinitialspace : Bool
  lineterminator : String
  quoting : ℕ
deriving DecidableEq

/-- The Forced dialect class of guess_csv: the configured delimiter with the
fixed quoting conventions. -/
def forcedDialect (d : String) : Dialect :=
  ⟨d, '"', none, true, false, "\n", 0⟩

/-- The Pref dialect class of guess_csv: semicolon delimiter. -/
def prefDialect : Dialect :=
  ⟨";", '"', none, true, false, "\n", 0⟩

/-- The Simple fallback dialect class of guess_csv: semicolon delimiter. -/
def simpleDialect : Dialect :=
  ⟨";", '"', none, true, false, "\n", 0⟩

/-- Python text.splitlines()[0] if text else "" on the newline / carriage
return fragment of line terminators. -/
def firstLine (text : String) : String :=
  String.mk (text.data.takeWhile (fun c => !(c == '\n' || c == '\r')))

/-- guess_csv from the source.  The statistical sniffer is external
(csv.Sniffer); its two calls are modelled by oracles: sniffDialect is the
sniffed dialect (none when sniffing raises) and sniffHasHeader is the header
heuristic's verdict (none when it raises).  In the forced-delimiter branch a
raising header heuristic propagates (error); in the auto branch any raise is
caught and the Simple fallback with header=true is returned. -/
def guess_csv (csv_delimiter : String) (text : String)
    (sniffDialect : Option Dialect) (sniffHasHeader : Option Bool) :
    Except Unit (Dialect × Bool) :=
  if csv_delimiter ≠ "" ∧ csv_delimiter ≠ "auto" then
    match sniffHasHeader with
    | none => Except.error ()
    | some b => Except.ok (forcedDialect csv_delimiter, b)
  else
    if (firstLine text).data.contains ';' && (firstLine text).data.contains ',' then
      match sniffHasHeader with
      | none => Except.ok (simpleDialect, true)
      | some b => Except.ok (prefDialect, b)
    else
      match sniffDialect, sniffHasHeader with
      | some d, some b => Except.ok (d, b)
      | _, _ => Except.ok (simpleDialect, true)

/-- The header list computed by main after decoding: the first row when a
header is present, else positional names sized to the first row. -/
def main_headers (has_header : Bool) (rows : List (List String)) : List String :=
  if has_header then rows.headD []
  else (List.range (rows.headD []).length).map (fun i => "col_" ++ toString (i + 1))

/-- Observable effects of one run of main. -/
structure MainTrace where
  crashed : Bool
  quit_called : Bool
  upload_called : Bool
deriving DecidableEq

/-- The control flow of main, step by step in source order, with oracles for
the effectful steps: env_ok (all required environment variables present),
connect_ok (connect_ftp returns), download (the decoded row list, none when
download_file raises), guess_ok (guess_csv returns rather than raising),
upload_ok (upload_bytes returns).  crashed records an exception escaping
main; quit_called records whether ftp.quit() ran. -/
def main_model (env_ok connect_ok : Bool) (download : Option (List (List String)))
    (guess_ok : Bool) (upload_ok : Bool) : MainTrace :=
  if !env_ok then ⟨false, false, false⟩
  else if !connect_ok then ⟨true, false, false⟩
  else
    match download with
    | none => ⟨true, false, false⟩
    | some rows =>
      if !guess_ok then ⟨true, false, false⟩
      else if rows.isEmpty then ⟨false, true, false⟩
      else if !upload_ok then ⟨true, false, false⟩
      else ⟨false, true, true⟩

/-- The last element of a list extended by one element. -/
theorem getLast?_append_one {α : Type} (l : List α) (a : α) :
    (l ++ [a]).getLast? = some a := by
  induction l with
  | nil => rfl
  | cons x xs ih =>
    cases xs with
    | nil => rfl
    | cons y ys =>
      rw [List.cons_append, List.cons_append, List.getLast?_cons_cons]
      exact ih

/-- When a trimmed PREZZO_SCONTATO header is already present the augmentation
leaves the header list unchanged. -/
theorem add_ps_fst_of_mem (od : String) (hs : List String)
    (rows : List (List String)) (hm : "PREZZO_SCONTATO" ∈ hs.map pyStrip) :
    (add_prezzo_scontato od hs rows).1 = hs := by
  unfold add_prezzo_scontato
  rcases find_col hs "liprezzo" with _ | i
  · rfl
  · rcases find_col hs "liscont1" with _ | j
    · rfl
    · simp [hm]

/-- C2: the numeric parser returns the spec's reference values on the
reference inputs, and yields no number (rather than failing) on the empty
and non-numeric strings. -/
theorem to_number_reference_values :
    to_number "2,53000" = some (253 / 100) ∧
    to_number "2.530,00" = some 2530 ∧
    to_number "2,530" = some 2530 ∧
    to_number "(123,45)" = some (-(12345 / 100)) ∧
    to_number "" = none ∧
    to_number "abc" = none := by
  refine ⟨?_, ?_, ?_, ?_, ?_, ?_⟩ <;> with_unfolding_all rfl

/-- C10: the output of filter_rows is a subsequence of the input rows: every
kept row is an unmodified input row, in input order, with multiplicity at
most that of the input. -/
theorem filter_rows_sublist (cfg : FilterConfig) (rows : List (List String))
    (headers : List String) : (filter_rows cfg rows headers).Sublist rows := by
  unfold filter_rows
  split
  · exact List.filter_sublist _
  · exact List.filter_sublist _

/-- C1 counterexample: in column mode with a target header absent from the
headers, filter_rows does not return an empty row set — the input row whose
cell matches is kept. -/
theorem filter_rows_missing_column_not_empty :
    "B" ∉ (["A"] : List String) ∧
    filter_rows ⟨"column", "B", "X"⟩ [["X"]] ["A"] = [["X"]] := by decide

/-- C1 (amended): in column mode with the target header absent, filter_rows
falls back to any-cell filtering: it keeps exactly the rows some trimmed cell
of which equals the match string. -/
theorem filter_rows_missing_column_any_cell (cfg : FilterConfig)
    (rows : List (List String)) (headers : List String)
    (_hmode : cfg.filter_mode = "column") (hcol : cfg.filter_column ∉ headers) :
    filter_rows cfg rows headers = rows.filter (anyCellPred cfg) := by
  unfold filter_rows
  rw [if_neg (fun h => hcol h.2)]

/-- Witness for the amended C1 at a concrete configuration and table. -/
theorem filter_rows_missing_column_any_cell_witness :
    filter_rows ⟨"column", "B", "X"⟩ [["X"], ["Y"]] ["A"] =
      List.filter (anyCellPred ⟨"column", "B", "X"⟩) [["X"], ["Y"]] :=
  filter_rows_missing_column_any_cell ⟨"column", "B", "X"⟩ [["X"], ["Y"]] ["A"]
    rfl (by decide)

/-- C3 counterexample: with the connection acquired and the download step
failing, the run terminates by an exception without ftp.quit() having run. -/
theorem main_model_download_failure_no_quit :
    (main_model true true none true true).quit_called = false ∧
    (main_model true true none true true).crashed = true :=
  ⟨rfl, rfl⟩

/-- C3 (amended): ftp.quit() runs exactly on the empty-input path and the
successful-completion path; an exception in download, dialect detection or
upload terminates the run without releasing the connection. -/
theorem main_model_quit_iff (e c g u : Bool)
    (d : Option (List (List String))) :
    (main_model e c d g u).quit_called = true ↔
      (e = true ∧ c = true ∧ ∃ rows, d = some rows ∧ g = true ∧
        (rows.isEmpty = true ∨ u = true)) := by
  cases e <;> cases c <;> cases g <;> cases u <;>
    rcases d with _ | rows <;> simp [main_model] <;>
    by_cases h : rows = [] <;> simp [h]

/-- C9: when zero rows are decoded, the run ends normally (no crash) with the
connection released and no upload performed. -/
theorem main_model_empty_input (u : Bool) :
    main_model true true (some []) true u = ⟨false, true, false⟩ := by
  cases u <;> rfl

/-- C4 counterexample: with no header row declared, the synthesized headers
are sized to the first row, not the widest one — the second row of this table
has a cell with no header above it. -/
theorem main_headers_not_sized_to_widest :
    main_headers false [["a"], ["b", "c"]] = ["col_1"] ∧
    (main_headers false [["a"], ["b", "c"]]).length <
      ([["a"], ["b", "c"]].getD 1 ([] : List String)).length := by decide

/-- C4 (amended): the synthesized positional header names are sized to the
first row of the decoded table. -/
theorem main_headers_sized_to_first_row (rows : List (List String)) :
    (main_headers false rows).length = (rows.headD []).length := by
  simp [main_headers]

/-- C8: with no delimiter override and a first line containing both a
semicolon and a comma, dialect detection returns the semicolon delimiter,
whatever the statistical sniffer would have said. -/
theorem guess_csv_prefers_semicolon (csv_delimiter text : String)
    (sniffDialect : Option Dialect) (sniffHasHeader : Option Bool)
    (hauto : csv_delimiter = "" ∨ csv_delimiter = "auto")
    (hsemi : (firstLine text).data.contains ';' = true)
    (hcomma : (firstLine text).data.contains ',' = true) :
    Except.map (fun p => p.1.delimiter)
      (guess_csv csv_delimiter text sniffDialect sniffHasHeader) =
      Except.ok ";" := by
  have hcond : ¬(csv_delimiter ≠ "" ∧ csv_delimiter ≠ "auto") := by
    rcases hauto with h | h <;> simp [h]
  unfold guess_csv
  rw [if_neg hcond]
  simp only [hsemi, hcomma, Bool.and_self, if_true]
  cases sniffHasHeader <;> rfl

/-- Witness for C8: a sample whose first line holds both separators, with a
sniffer oracle that would have chosen the comma. -/
theorem guess_csv_prefers_semicolon_witness :
    Except.map (fun p => p.1.delimiter)
      (guess_csv "auto" "a;b,c\nx;y" (some (forcedDialect ",")) (some false)) =
      Except.ok ";" :=
  guess_csv_prefers_semicolon "auto" "a;b,c\nx;y" (some (forcedDialect ","))
    (some false) (Or.inr rfl) (by decide) (by decide)

/-- C7: a row not longer than the larger located source-column index gets
exactly one empty cell appended, without failing, and the processed row stays
in the table. -/
theorem add_prezzo_scontato_short_row (od : String) (headers : List String)
    (rows : List (List String)) (idxP idxS : ℕ) (r : List String)
    (hP : find_col headers "liprezzo" = some idxP)
    (hS : find_col headers "liscont1" = some idxS)
    (hshort : r.length ≤ max idxP idxS) :
    processRow od idxP idxS r = r ++ [""] ∧
    (r ∈ rows → r ++ [""] ∈ (add_prezzo_scontato od headers rows).2) := by
  have h1 : processRow od idxP idxS r = r ++ [""] := by
    unfold processRow
    rw [if_pos hshort]
  refine ⟨h1, fun hr => ?_⟩
  have h2 : (add_prezzo_scontato od headers rows).2 =
      rows.map (processRow od idxP idxS) := by
    simp [add_prezzo_scontato, hP, hS]
  rw [h2, ← h1]
  exact List.mem_map_of_mem _ hr

/-- Witness for C7 at a concrete short row. -/
theorem add_prezzo_scontato_short_row_witness :
    processRow "dot" 0 1 ["5"] = ["5"] ++ [""] ∧
    (["5"] ∈ [["5"]] →
      ["5"] ++ [""] ∈ (add_prezzo_scontato "dot" ["LIPREZZO", "LISCONT1"] [["5"]]).2) :=
  add_prezzo_scontato_short_row "dot" ["LIPREZZO", "LISCONT1"] [["5"]] 0 1 ["5"]
    (by with_unfolding_all rfl) (by with_unfolding_all rfl) (by decide)

/-- C6: with the price cells equal and parseable, a discount cell parsing to
-30 produces the same appended discounted-price cell as one parsing to 30,
and one parsing to 150 the same as one parsing to 100 — in the latter case
the appended cell renders the price multiplied by zero. -/
theorem processRow_discount_normalization (od : String) (idxP idxS : ℕ)
    (r₁ r₂ : List String) (p : ℚ)
    (h₁ : max idxP idxS < r₁.length) (h₂ : max idxP idxS < r₂.length)
    (hp₁ : to_number (r₁.getD idxP "") = some p)
    (hp₂ : to_number (r₂.getD idxP "") = some p) :
    ((to_number (r₁.getD idxS "") = some (-30) ∧
        to_number (r₂.getD idxS "") = some 30) →
      (processRow od idxP idxS r₁).getLast? =
        (processRow od idxP idxS r₂).getLast?) ∧
    ((to_number (r₁.getD idxS "") = some 150 ∧
        to_number (r₂.getD idxS "") = some 100) →
      (processRow od idxP idxS r₁).getLast? =
        (processRow od idxP idxS r₂).getLast? ∧
      (processRow od idxP idxS r₁).getLast? = some (fmt_decimal od (p * 0))) := by
  have e₁ : processRow od idxP idxS r₁ = r₁ ++ [fmt_decimal od
      (p * (1 - norm_sconto (to_number (r₁.getD idxS "")) / 100))] := by
    unfold processRow
    rw [if_neg (not_le.mpr h₁), hp₁]
  have e₂ : processRow od idxP idxS r₂ = r₂ ++ [fmt_decimal od
      (p * (1 - norm_sconto (to_number (r₂.getD idxS "")) / 100))] := by
    unfold processRow
    rw [if_neg (not_le.mpr h₂), hp₂]
  constructor
  · rintro ⟨ha, hb⟩
    rw [e₁, e₂, ha, hb, getLast?_append_one, getLast?_append_one]
    norm_num [norm_sconto, pyAbs]
  · rintro ⟨ha, hb⟩
    rw [e₁, e₂, ha, hb, getLast?_append_one, getLast?_append_one]
    refine ⟨?_, ?_⟩ <;> norm_num [norm_sconto, pyAbs]

/-- Witness for C6 at a concrete price row with discounts -30 and 30. -/
theorem processRow_discount_normalization_witness :
    (processRow "dot" 0 1 ["100", "-30"]).getLast? =
      (processRow "dot" 0 1 ["100", "30"]).getLast? :=
  (processRow_discount_normalization "dot" 0 1 ["100", "-30"] ["100", "30"] 100
    (by decide) (by decide) (by with_unfolding_all rfl) (by with_unfolding_all rfl)).1
    ⟨by with_unfolding_all rfl, by with_unfolding_all rfl⟩

/-- C5 counterexample: a second invocation of the augmentation appends no
second header but does append a second computed discount cell to the row. -/
theorem add_prezzo_scontato_twice_duplicates_cells :
    add_prezzo_scontato "dot"
        (add_prezzo_scontato "dot" ["LIPREZZO", "LISCONT1"] [["100", "10"]]).1
        (add_prezzo_scontato "dot" ["LIPREZZO", "LISCONT1"] [["100", "10"]]).2 =
      (["LIPREZZO", "LISCONT1", "PREZZO_SCONTATO"],
        [["100", "10", "90.00", "90.00"]]) := by
  with_unfolding_all rfl

/-- C5 (amended): the duplicate-name guard compares trimmed header names
case-sensitively and is checked once per table; invoking the augmentation
twice adds no second PREZZO_SCONTATO header (though rows do gain an
additional cell). -/
theorem add_prezzo_scontato_twice_headers_stable (od : String)
    (headers : List String) (rows : List (List String)) :
    (add_prezzo_scontato od (add_prezzo_scontato od headers rows).1
        (add_prezzo_scontato od headers rows).2).1 =
      (add_prezzo_scontato od headers rows).1 := by
  rcases hP : find_col headers "liprezzo" with _ | idxP
  · have e : add_prezzo_scontato od headers rows = (headers, rows) := by
      unfold add_prezzo_scontato
      rw [hP]
    simp [e]
  · rcases hS : find_col headers "liscont1" with _ | idxS
    · have e : add_prezzo_scontato od headers rows = (headers, rows) := by
        unfold add_prezzo_scontato
        rw [hP, hS]
      simp [e]
    · have e : (add_prezzo_scontato od headers rows).1 =
          (if "PREZZO_SCONTATO" ∈ headers.map pyStrip then headers
           else headers ++ ["PREZZO_SCONTATO"]) := by
        unfold add_prezzo_scontato
        rw [hP, hS]
      have hmem : "PREZZO_SCONTATO" ∈
          (add_prezzo_scontato od headers rows).1.map pyStrip := by
        rw [e]
        by_cases g : "PREZZO_SCONTATO" ∈ headers.map pyStrip
        · rw [if_pos g]
          exact g
        · rw [if_neg g, List.map_append]
          have hps : pyStrip "PREZZO_SCONTATO" = "PREZZO_SCONTATO" := by decide
          simp [hps]
      exact add_ps_fst_of_mem od _ _ hmem

end FilterListino
